import Mathlib

/-!
Shallow embedding of `ospd/misc.py` (target resolver, port specification
parser, scan registry) under Python 3 semantics, together with proofs about
the claims of the specification.

Python strings are modelled as `List Char` (a Python `str` is a sequence of
code points); Python `bytes` values are modelled as `List Nat`, one entry per
byte.  Fallible Python code (uncaught exceptions) is modelled with `Except`.
-/

/-- A Python string: a sequence of code points. -/
abbrev PyStr := List Char

/-- Convert a Lean string literal to the Python string model. -/
def pyS (s : String) : PyStr := s.toList

/-- The Python exceptions that the embedded code can raise. -/
inductive PyErr where
  | typeError
  | valueError
  | keyError
  | indexError
  | structError
  deriving DecidableEq, Repr

instance {ε α : Type} [DecidableEq ε] [DecidableEq α] : DecidableEq (Except ε α) := fun x y =>
  match x, y with
  | .ok a, .ok b =>
    if h : a = b then .isTrue (by rw [h]) else .isFalse (by intro hh; cases hh; exact h rfl)
  | .error a, .error b =>
    if h : a = b then .isTrue (by rw [h]) else .isFalse (by intro hh; cases hh; exact h rfl)
  | .ok _, .error _ => .isFalse (by intro hh; cases hh)
  | .error _, .ok _ => .isFalse (by intro hh; cases hh)

/-- Python `str.split(sep)` for a one-character separator:
`''.split(sep) == ['']`, and separators delimit (possibly empty) fields. -/
def pySplitChar (sep : Char) : PyStr → List PyStr
  | [] => [[]]
  | c :: rest =>
    if c = sep then [] :: pySplitChar sep rest
    else
      match pySplitChar sep rest with
      | s :: ss => (c :: s) :: ss
      | [] => [[c]]

/-- Characters removed by Python `str.strip()` with no argument
(ASCII whitespace; the Unicode whitespace code points are not needed by any
input considered here). -/
def isPyWs (c : Char) : Bool :=
  c = ' ' ∨ c = '\t' ∨ c = '\n' ∨ c = '\r' ∨ c = '\x0b' ∨ c = '\x0c'

/-- Python `str.strip()`. -/
def pyStripWs (s : PyStr) : PyStr :=
  ((s.dropWhile isPyWs).reverse.dropWhile isPyWs).reverse

/-- Python `str.replace(old, '')` for a one-character `old`. -/
def pyRemoveChar (old : Char) (s : PyStr) : PyStr :=
  s.filter (fun c => c ≠ old)

/-- Helper for `pyFindSub`: first index at which `sub` occurs, or -1. -/
def pyFindSubAux (sub : PyStr) : PyStr → Nat → Int
  | [], i => if sub.isEmpty then (i : Int) else -1
  | c :: rest, i =>
    if List.isPrefixOf sub (c :: rest) then (i : Int)
    else pyFindSubAux sub rest (i + 1)

/-- Python `s.find(sub)`: first index of the substring, or -1. -/
def pyFindSub (s sub : PyStr) : Int := pyFindSubAux sub s 0

/-- Python `s.index(sub)`: like `find` but raises `ValueError` when absent. -/
def pyIndexSub (s sub : PyStr) : Except PyErr Int :=
  let i := pyFindSub s sub
  if i = -1 then .error .valueError else .ok i

/-- Python `s[i]` with support for negative indices; `IndexError` when out of
range. -/
def pyGetItem (s : PyStr) (i : Int) : Except PyErr Char :=
  let j := if i < 0 then i + s.length else i
  if h : 0 ≤ j ∧ j < s.length then
    .ok (s.get ⟨j.toNat, by omega⟩)
  else
    .error .indexError

/-- Clamp a (possibly negative) Python slice bound to a `List.take`/`drop`
count. -/
def pySliceIdx (len : Nat) (i : Int) : Nat :=
  if i < 0 then (i + len).toNat else i.toNat

/-- Python `s[i:]`. -/
def pySliceFrom (s : PyStr) (i : Int) : PyStr := s.drop (pySliceIdx s.length i)

/-- Python `s[:i]`. -/
def pySliceTo (s : PyStr) (i : Int) : PyStr := s.take (pySliceIdx s.length i)

/-- Python `s[a:b]`. -/
def pySliceBetween (s : PyStr) (a b : Int) : PyStr :=
  (s.take (pySliceIdx s.length b)).drop (pySliceIdx s.length a)

/-- Keep the first occurrence of every element
(`list(collections.OrderedDict.fromkeys(l))`). -/
def pyDedupAux : List PyStr → List PyStr → List PyStr
  | acc, [] => acc
  | acc, x :: xs => pyDedupAux (if x ∈ acc then acc else acc ++ [x]) xs

/-- Deduplicate preserving first-seen order. -/
def pyDedupKeepFirst (l : List PyStr) : List PyStr := pyDedupAux [] l

/-- Value of an ASCII decimal digit. -/
def digitVal (c : Char) : Nat := c.toNat - 48

/-- Helper for Python `int()` digit parsing: digits with single underscores
allowed between digits (PEP 515). -/
def pyIntDigitsAux : List Char → Nat → Option Nat
  | [], acc => some acc
  | c :: rest, acc =>
    if c.isDigit then pyIntDigitsAux rest (acc * 10 + digitVal c)
    else if c = '_' then
      match rest with
      | d :: rest2 =>
        if d.isDigit then pyIntDigitsAux rest2 (acc * 10 + digitVal d) else none
      | [] => none
    else none

/-- Parse a nonempty run of decimal digits (underscore grouping allowed,
no leading or trailing underscore). -/
def pyIntDigits : List Char → Option Nat
  | [] => none
  | c :: rest => if c.isDigit then pyIntDigitsAux rest (digitVal c) else none

/-- Python `int(s)`: surrounding whitespace, an optional sign, then decimal
digits with optional underscore grouping.  (Unicode decimal digits are not
modelled; no input considered here contains them.)  `none` models
`ValueError`. -/
def pyIntParse (s : PyStr) : Option Int :=
  let t := pyStripWs s
  match t with
  | '+' :: rest => (pyIntDigits rest).map (fun n => (n : Int))
  | '-' :: rest => (pyIntDigits rest).map (fun n => -(n : Int))
  | _ => (pyIntDigits t).map (fun n => (n : Int))

/-- Value of an ASCII hexadecimal digit, or `none`. -/
def hexVal (c : Char) : Option Nat :=
  if c.isDigit then some (c.toNat - 48)
  else if 'a' ≤ c ∧ c ≤ 'f' then some (c.toNat - 87)
  else if 'A' ≤ c ∧ c ≤ 'F' then some (c.toNat - 55)
  else none

/-- Is `c` an ASCII hexadecimal digit? -/
def isHexDig (c : Char) : Bool := (hexVal c).isSome

/-- Helper for Python `int(s, 16)` digit parsing with underscore grouping. -/
def pyHexDigitsAux : List Char → Nat → Option Nat
  | [], acc => some acc
  | c :: rest, acc =>
    match hexVal c with
    | some v => pyHexDigitsAux rest (acc * 16 + v)
    | none =>
      if c = '_' then
        match rest with
        | d :: rest2 =>
          match hexVal d with
          | some v => pyHexDigitsAux rest2 (acc * 16 + v)
          | none => none
        | [] => none
      else none

/-- Parse a nonempty run of hex digits (underscore grouping allowed). -/
def pyHexDigits : List Char → Option Nat
  | [] => none
  | c :: rest =>
    match hexVal c with
    | some v => pyHexDigitsAux rest v
    | none => none

/-- Python `int(s, 16)`: whitespace, optional sign, optional `0x`/`0X`
prefix (an underscore may directly follow the prefix), hex digits. -/
def pyIntHexParse (s : PyStr) : Option Int :=
  let t := pyStripWs s
  let core : List Char → Option Nat := fun u =>
    match u with
    | '0' :: 'x' :: rest => pyHexAfter rest
    | '0' :: 'X' :: rest => pyHexAfter rest
    | _ => pyHexDigits u
  match t with
  | '+' :: rest => (core rest).map (fun n => (n : Int))
  | '-' :: rest => (core rest).map (fun n => -(n : Int))
  | _ => (core t).map (fun n => (n : Int))
where
  /-- After a `0x` prefix one leading underscore is allowed. -/
  pyHexAfter : List Char → Option Nat
  | '_' :: rest => pyHexDigits rest
  | rest => pyHexDigits rest

/-- Big-endian value of a byte string
(the value of `int(binascii.hexlify(b), 16)` for nonempty `b`). -/
def bytesBEtoNat (b : List Nat) : Nat := b.foldl (fun acc x => acc * 256 + x) 0

/-- Python `int(binascii.hexlify(b), 16)`: `ValueError` on the empty byte
string (`int(b'', 16)` raises), otherwise the big-endian value. -/
def bytesHexInt (b : List Nat) : Except PyErr Nat :=
  if b.isEmpty then .error .valueError else .ok (bytesBEtoNat b)

/-- Python 3 `bytes(n)` for an integer `n`: a zero-filled byte string of
length `n`. -/
def pyBytesZeros (n : Nat) : List Nat := List.replicate n 0

/-- The four big-endian bytes of a 32-bit value. -/
def natToBE4 (v : Nat) : List Nat :=
  [v / 16777216 % 256, v / 65536 % 256, v / 256 % 256, v % 256]

/-- `struct.pack('!I', v)` (also `'!L'`): `struct.error` when `v` does not
fit in 32 bits. -/
def structPackBE4 (v : Nat) : Except PyErr (List Nat) :=
  if v < 4294967296 then .ok (natToBE4 v) else .error .structError

/-- `struct.unpack('!L', b)[0]`: `struct.error` unless `b` has exactly four
bytes. -/
def structUnpackBE4 (b : List Nat) : Except PyErr Nat :=
  if b.length = 4 then .ok (bytesBEtoNat b) else .error .structError

/-- Lexicographic `<` on byte strings (Python `bytes` comparison). -/
def bytesLt : List Nat → List Nat → Bool
  | [], [] => false
  | [], _ :: _ => true
  | _ :: _, [] => false
  | x :: xs, y :: ys => if x < y then true else if y < x then false else bytesLt xs ys

/-- Python `range(s, e + 1)` over naturals. -/
def pyRangeIncl (s e : Nat) : List Nat := List.range' s (e + 1 - s)

/-- Decimal rendering of a natural (`str(n)` for `n ≥ 0`). -/
def pyStrOfNat (n : Nat) : PyStr := Nat.toDigits 10 n

/-- `str(i)` for a Python int. -/
def pyStrOfInt (i : Int) : PyStr :=
  if i < 0 then '-' :: pyStrOfNat i.natAbs else pyStrOfNat i.toNat

/-- Join with a one-character separator (`sep.join(parts)`). -/
def pyJoinChar (sep : Char) : List PyStr → PyStr
  | [] => []
  | [p] => p
  | p :: rest => p ++ sep :: pyJoinChar sep rest

/-- One dotted-decimal octet as accepted by `inet_pton(AF_INET, ·)`:
one to three decimal digits, no leading zero (except "0" itself),
value at most 255. -/
def parseOctet (p : PyStr) : Option Nat :=
  if p.isEmpty ∨ 3 < p.length ∨ ¬p.all Char.isDigit then none
  else if 1 < p.length ∧ p.headD ' ' = '0' then none
  else
    let v := p.foldl (fun acc c => acc * 10 + digitVal c) 0
    if v ≤ 255 then some v else none

/-- `socket.inet_pton(socket.AF_INET, s)`: exactly four dotted-decimal
octets; returns the packed four-byte string. -/
def inet_pton4 (s : PyStr) : Option (List Nat) :=
  match pySplitChar '.' s with
  | [p0, p1, p2, p3] =>
    match parseOctet p0, parseOctet p1, parseOctet p2, parseOctet p3 with
    | some a, some b, some c, some d => some [a, b, c, d]
    | _, _, _, _ => none
  | _ => none

/-- `socket.inet_ntoa(b)` on a packed four-byte string: dotted decimal. -/
def inet_ntoa (b : List Nat) : PyStr := pyJoinChar '.' (b.map pyStrOfNat)

/-- The dotted-decimal string of a 32-bit address value. -/
def ipv4addrStr (v : Nat) : PyStr := inet_ntoa (natToBE4 v)

/-- One 16-bit hexadecimal group of an IPv6 address: one to four hex
digits. -/
def parseHexGroup (g : PyStr) : Option Nat :=
  if g.isEmpty ∨ 4 < g.length ∨ ¬g.all isHexDig then none
  else some (g.foldl (fun acc c => acc * 16 + (hexVal c).getD 0) 0)

/-- Classify the colon-separated fields of an IPv6 literal: `some (gs, none)`
when there is no `::`, `some (l, some r)` for the fields left and right of a
single `::`, `none` for an ill-formed colon structure. -/
def splitDoubleColon (parts : List PyStr) : Option (List PyStr × Option (List PyStr)) :=
  if parts.all (fun p => ¬p.isEmpty) then some (parts, none)
  else
    match parts with
    | [] :: [] :: rest =>
      if rest = [[]] then some ([], some [])
      else if ¬rest.isEmpty ∧ rest.all (fun p => ¬p.isEmpty) then some ([], some rest)
      else none
    | ps =>
      match ps.reverse with
      | [] :: [] :: restRev =>
        let initL := restRev.reverse
        if ¬initL.isEmpty ∧ initL.all (fun p => ¬p.isEmpty) then some (initL, some [])
        else none
      | _ =>
        let l := ps.takeWhile (fun p => ¬p.isEmpty)
        match ps.dropWhile (fun p => ¬p.isEmpty) with
        | [] :: r2 =>
          if ¬l.isEmpty ∧ ¬r2.isEmpty ∧ r2.all (fun p => ¬p.isEmpty) then
            some (l, some r2)
          else none
        | _ => none

/-- Convert IPv6 fields to bytes; a trailing dotted-quad field (counting as
two groups) is allowed only when `ipv4End` is true. -/
def groupsToBytes (ipv4End : Bool) : List PyStr → Option (List Nat)
  | [] => some []
  | [g] =>
    if ipv4End ∧ g.contains '.' then inet_pton4 g
    else (parseHexGroup g).map (fun v => [v / 256, v % 256])
  | g :: rest => do
    let v ← parseHexGroup g
    let tl ← groupsToBytes ipv4End rest
    some ([v / 256, v % 256] ++ tl)

/-- `socket.inet_pton(socket.AF_INET6, s)` (modelled from the glibc
parser): hex groups separated by `:`, at most one `::`, optional trailing
dotted quad, 128 bits in total; returns the packed 16-byte string. -/
def inet_pton6 (s : PyStr) : Option (List Nat) :=
  match splitDoubleColon (pySplitChar ':' s) with
  | some (gs, none) => do
    let bytes ← groupsToBytes true gs
    if bytes.length = 16 then some bytes else none
  | some (l, some r) => do
    let lb ← groupsToBytes false l
    let rb ← groupsToBytes true r
    if lb.length + rb.length ≤ 14 then
      some (lb ++ List.replicate (16 - lb.length - rb.length) 0 ++ rb)
    else none
  | none => none

/-- Lower-case hexadecimal rendering of a 16-bit group (no leading
zeros). -/
def hexGroupStr (v : Nat) : PyStr :=
  (Nat.toDigits 16 v).map fun c =>
    if 'A' ≤ c ∧ c ≤ 'F' then Char.ofNat (c.toNat + 32) else c

/-- The eight 16-bit groups of a packed IPv6 address. -/
def ipv6Words : List Nat → List Nat
  | a :: b :: rest => (a * 256 + b) :: ipv6Words rest
  | _ => []

/-- Longest (leftmost among ties) run of zero groups: `(base, len)`, with
`len = 0` when there is none. -/
def bestZeroRun (ws : List Nat) : Nat × Nat :=
  let runs := (List.range ws.length).map fun i =>
    (i, ((ws.drop i).takeWhile (fun w => w = 0)).length)
  runs.foldl (fun best r => if r.2 > best.2 then r else best) (0, 0)

/-- `socket.inet_ntop(socket.AF_INET6, b)` (modelled from glibc):
lower-case groups, the longest run of two or more zero groups compressed to
`::`, IPv4-mapped/compatible tails rendered in dotted decimal. -/
def inet_ntop6 (b : List Nat) : PyStr :=
  let ws := ipv6Words b
  let best := bestZeroRun ws
  let (base, len) := if best.2 < 2 then (ws.length, 0) else best
  let ipv4Tail : Bool :=
    base = 0 ∧ (len = 6 ∨ (len = 7 ∧ ws.getD 7 0 ≠ 1) ∨ (len = 5 ∧ ws.getD 5 0 = 0xffff))
  let renderFrom : Nat → PyStr := fun i =>
    pyJoinChar ':' ((ws.drop i).map hexGroupStr)
  if ipv4Tail then
    let head := if len = 5 then pyS "::ffff:" else pyS "::"
    head ++ inet_ntoa (b.drop 12)
  else if len = 0 then
    pyJoinChar ':' (ws.map hexGroupStr)
  else
    pyJoinChar ':' ((ws.take base).map hexGroupStr) ++ ':' ::
      ':' :: renderFrom (base + len)

/-- The loop of `ipv4_range_to_list`: `struct.pack('!L', value)` then
`socket.inet_ntoa`. -/
def ipv4_range_loop : List Nat → Except PyErr (List PyStr)
  | [] => .ok []
  | v :: rest =>
    match structPackBE4 v with
    | .error e => .error e
    | .ok b =>
      match ipv4_range_loop rest with
      | .error e => .error e
      | .ok tl => .ok (inet_ntoa b :: tl)

/-- `ipv4_range_to_list(start_packed, end_packed)`. -/
def ipv4_range_to_list (sp ep : List Nat) : Except PyErr (List PyStr) :=
  match structUnpackBE4 sp with
  | .error e => .error e
  | .ok start =>
    match structUnpackBE4 ep with
    | .error e => .error e
    | .ok e => ipv4_range_loop (pyRangeIncl start e)

/-- `struct.pack('!2Q', v >> 64, v & ((1 << 64) - 1))`: `struct.error` when
the high half does not fit 64 bits. -/
def structPack2Q (v : Nat) : Except PyErr (List Nat) :=
  if v / 18446744073709551616 < 18446744073709551616 then
    .ok ((List.range 16).map fun i => v / 256 ^ (15 - i) % 256)
  else .error .structError

/-- The loop of `ipv6_range_to_list`. -/
def ipv6_range_loop : List Nat → Except PyErr (List PyStr)
  | [] => .ok []
  | v :: rest =>
    match structPack2Q v with
    | .error e => .error e
    | .ok b =>
      match ipv6_range_loop rest with
      | .error e => .error e
      | .ok tl => .ok (inet_ntop6 b :: tl)

/-- `ipv6_range_to_list(start_packed, end_packed)`. -/
def ipv6_range_to_list (sp ep : List Nat) : Except PyErr (List PyStr) := do
  let start ← bytesHexInt sp
  let e ← bytesHexInt ep
  ipv6_range_loop (pyRangeIncl start e)

/-- `target_to_ipv4(target)`: a literal IPv4 address resolves to itself. -/
def target_to_ipv4 (target : PyStr) : Option (List PyStr) :=
  (inet_pton4 target).map (fun _ => [target])

/-- `target_to_ipv6(target)`: a literal IPv6 address resolves to itself. -/
def target_to_ipv6 (target : PyStr) : Option (List PyStr) :=
  (inet_pton6 target).map (fun _ => [target])

/-- `target_to_ipv4_short(target)`.  The Python 3 slip is kept as in the
source: `int(binascii.hexlify(bytes(start_packed[3])), 16)` builds a
zero-filled byte string of length `start_packed[3]` (so the value is 0
whenever the last octet is nonzero, and `int(b'', 16)` raises `ValueError`
when it is 0).  `inet_pton` always returns four bytes, so the `[3]` access
cannot fail and is modelled with `getD`. -/
def target_to_ipv4_short (target : PyStr) : Except PyErr (Option (List PyStr)) :=
  match pySplitChar '-' target with
  | [p1, p2] =>
    match inet_pton4 p1, pyIntParse p2 with
    | some start_packed, some end_value => do
      let start_value ← bytesHexInt (pyBytesZeros (start_packed.getD 3 0))
      if end_value < 0 ∨ 255 < end_value ∨ end_value < (start_value : Int) then
        .ok none
      else do
        let ep := start_packed.take 3 ++ [end_value.toNat]
        let l ← ipv4_range_to_list start_packed ep
        .ok (some l)
    | _, _ => .ok none
  | _ => .ok none

/-- `target_to_ipv4_cidr(target)`. -/
def target_to_ipv4_cidr (target : PyStr) : Except PyErr (Option (List PyStr)) :=
  match pySplitChar '/' target with
  | [p1, p2] =>
    match inet_pton4 p1, pyIntParse p2 with
    | some start_packed, some block =>
      if block ≤ 0 ∨ 30 < block then .ok none
      else
        match bytesHexInt start_packed with
        | .error e => .error e
        | .ok v =>
          let n := block.toNat
          let start_value := (v >>> (32 - n) <<< (32 - n)) + 1
          let end_value := (start_value ||| (4294967295 >>> n)) - 1
          match structPackBE4 start_value with
          | .error e => .error e
          | .ok sp =>
            match structPackBE4 end_value with
            | .error e => .error e
            | .ok ep =>
              match ipv4_range_to_list sp ep with
              | .error e => .error e
              | .ok l => .ok (some l)
    | _, _ => .ok none
  | _ => .ok none

/-- `target_to_ipv6_cidr(target)`. -/
def target_to_ipv6_cidr (target : PyStr) : Except PyErr (Option (List PyStr)) :=
  match pySplitChar '/' target with
  | [p1, p2] =>
    match inet_pton6 p1, pyIntParse p2 with
    | some start_packed, some block =>
      if block ≤ 0 ∨ 126 < block then .ok none
      else do
        let n := block.toNat
        let v ← bytesHexInt start_packed
        let start_value := (v >>> (128 - n) <<< (128 - n)) + 1
        let end_value := (start_value ||| ((2 ^ 128 - 1) >>> n)) - 1
        let sp ← structPack2Q start_value
        let ep ← structPack2Q end_value
        let l ← ipv6_range_to_list sp ep
        .ok (some l)
    | _, _ => .ok none
  | _ => .ok none

/-- `target_to_ipv4_long(target)`. -/
def target_to_ipv4_long (target : PyStr) : Except PyErr (Option (List PyStr)) :=
  match pySplitChar '-' target with
  | [p1, p2] =>
    match inet_pton4 p1, inet_pton4 p2 with
    | some sp, some ep =>
      if bytesLt ep sp then .ok none
      else do
        let l ← ipv4_range_to_list sp ep
        .ok (some l)
    | _, _ => .ok none
  | _ => .ok none

/-- `target_to_ipv6_short(target)`. -/
def target_to_ipv6_short (target : PyStr) : Except PyErr (Option (List PyStr)) :=
  match pySplitChar '-' target with
  | [p1, p2] =>
    match inet_pton6 p1, pyIntHexParse p2 with
    | some start_packed, some end_value => do
      let start_value ← bytesHexInt (start_packed.drop 14)
      if end_value < 0 ∨ 65535 < end_value ∨ end_value < (start_value : Int) then
        .ok none
      else do
        let ep := start_packed.take 14 ++ [end_value.toNat / 256, end_value.toNat % 256]
        let l ← ipv6_range_to_list start_packed ep
        .ok (some l)
    | _, _ => .ok none
  | _ => .ok none

/-- `target_to_ipv6_long(target)`. -/
def target_to_ipv6_long (target : PyStr) : Except PyErr (Option (List PyStr)) :=
  match pySplitChar '-' target with
  | [p1, p2] =>
    match inet_pton6 p1, inet_pton6 p2 with
    | some sp, some ep =>
      if bytesLt ep sp then .ok none
      else do
        let l ← ipv6_range_to_list sp ep
        .ok (some l)
    | _, _ => .ok none
  | _ => .ok none

/-- A character matched by the class `[\w.-]` of the hostname pattern.
Python `\w` is modelled on its ASCII part (letters, digits, underscore);
no input considered here contains non-ASCII word characters. -/
def isHostChar (c : Char) : Bool := c.isAlphanum ∨ c = '_' ∨ c = '.' ∨ c = '-'

/-- `re.match(r'^[\w.-]+$', t)`: all characters in the class, where `$`
also matches just before one trailing newline. -/
def hostRegexMatch (t : PyStr) : Bool :=
  let u := if t.getLast? = some '\n' then t.dropLast else t
  ¬u.isEmpty ∧ u.all isHostChar

/-- `target_to_hostname(target)`. -/
def target_to_hostname (target : PyStr) : Option (List PyStr) :=
  if target.length = 0 ∨ 255 < target.length then none
  else if hostRegexMatch target then some [target] else none

/-- Python truthiness of an optional list (`None` and `[]` are falsy). -/
def pyTruthy (o : Option (List PyStr)) : Bool :=
  match o with
  | none => false
  | some l => ¬l.isEmpty

/-- `target_to_list(target)`: the nine matchers tried in the fixed
precedence order, falling through on a falsy result. -/
def target_to_list (target : PyStr) : Except PyErr (Option (List PyStr)) := do
  let nl := target_to_ipv4 target
  let nl := if pyTruthy nl then nl else target_to_ipv6 target
  let nl ← if pyTruthy nl then .ok nl else target_to_ipv4_cidr target
  let nl ← if pyTruthy nl then .ok nl else target_to_ipv6_cidr target
  let nl ← if pyTruthy nl then .ok nl else target_to_ipv4_short target
  let nl ← if pyTruthy nl then .ok nl else target_to_ipv4_long target
  let nl ← if pyTruthy nl then .ok nl else target_to_ipv6_short target
  let nl ← if pyTruthy nl then .ok nl else target_to_ipv6_long target
  let nl := if pyTruthy nl then nl else target_to_hostname target
  .ok nl

/-- The token loop of `target_str_to_list`: each token is stripped and
resolved; a falsy resolution makes the whole call return `None`. -/
def target_str_to_list_go : List PyStr → List PyStr → Except PyErr (Option (List PyStr))
  | [], acc => .ok (some (pyDedupKeepFirst acc))
  | t :: rest, acc => do
    let r ← target_to_list (pyStripWs t)
    match r with
    | some l => if l.isEmpty then .ok none else target_str_to_list_go rest (acc ++ l)
    | none => .ok none

/-- `target_str_to_list(target_str)`. -/
def target_str_to_list (target_str : PyStr) : Except PyErr (Option (List PyStr)) :=
  target_str_to_list_go (pySplitChar ',' target_str) []

/-- The characters allowed by the port-string pattern `[^TU:0-9, \-]`. -/
def isPortChar (c : Char) : Bool :=
  c = 'T' ∨ c = 'U' ∨ c = ':' ∨ c.isDigit ∨ c = ',' ∨ c = ' ' ∨ c = '-'

/-- `ports_str_check_failed(port_str)`. -/
def ports_str_check_failed (port_str : PyStr) : Bool :=
  ¬port_str.all isPortChar ∨
    1 < port_str.count 'T' ∨
    1 < port_str.count 'U' ∨
    port_str.count ':' < port_str.count 'T' + port_str.count 'U'

/-- `port_str_arrange(ports)`: move the `T` segment in front of the `U`
segment when it appears after it. -/
def port_str_arrange (ports : PyStr) : PyStr :=
  let b_tcp := pyFindSub ports (pyS "T")
  let b_udp := pyFindSub ports (pyS "U")
  if (b_udp ≠ -1 ∧ b_tcp ≠ -1) ∧ b_udp < b_tcp then
    pySliceFrom ports b_tcp ++ pySliceBetween ports b_udp b_tcp
  else ports

/-- Python `range(a, b + 1)` over ints. -/
def intRangeIncl (a b : Int) : List Int :=
  (List.range' 0 (b + 1 - a).toNat).map (fun i => a + (i : Int))

/-- `port_range_expand(portrange)`: `None` when there is no `-`; otherwise
the integers of `[a, b]` (an `int()` failure raises `ValueError`). -/
def port_range_expand (portrange : PyStr) : Except PyErr (Option (List Int)) :=
  if portrange.isEmpty ∨ ¬portrange.contains '-' then .ok none
  else
    match pyIntParse (portrange.takeWhile (fun c => c ≠ '-')),
          pyIntParse ((portrange.dropWhile (fun c => c ≠ '-')).tail) with
    | some a, some b => .ok (some (intRangeIncl a b))
    | _, _ => .error .valueError

/-- Python `list.sort()` on ints (ascending). -/
def pySortInt (l : List Int) : List Int := List.insertionSort (· ≤ ·) l

/-- The port accumulation loop shared by the `tports` and `uports` branches
of `ports_as_list`: split on commas, expand ranges (`extend(None)` would be
a `TypeError`), parse single ports. -/
def portSegLoop : List PyStr → List Int → Except PyErr (List Int)
  | [], acc => .ok acc
  | p :: rest, acc =>
    if p.contains '-' then
      match port_range_expand p with
      | .error e => .error e
      | .ok none => .error .typeError
      | .ok (some l) => portSegLoop rest (acc ++ l)
    else
      match pyIntParse p with
      | some v => portSegLoop rest (acc ++ [v])
      | none => .error .valueError

/-- One segment of `ports_as_list`: skipped entirely when the segment
string is falsy, otherwise built in the loop and then sorted in place. -/
def portSegPorts (seg : PyStr) : Except PyErr (List Int) :=
  if seg.isEmpty then .ok []
  else
    match portSegLoop (pySplitChar ',' seg) [] with
    | .error e => .error e
    | .ok l => .ok (pySortInt l)

/-- The final stage of `ports_as_list`: build and sort the two segment
lists. -/
def portsFinal (segs : Except PyErr (PyStr × PyStr)) :
    Except PyErr (Option (List Int × List Int)) :=
  match segs with
  | .error e => .error e
  | .ok (tports, uports) =>
    match portSegPorts tports with
    | .error e => .error e
    | .ok tcp_list =>
      match portSegPorts uports with
      | .error e => .error e
      | .ok udp_list => .ok (some (tcp_list, udp_list))

/-- `ports_as_list(port_str)`: `[None, None]` (modelled as `none`) on an
empty or malformed string, otherwise the pair of tcp and udp port lists.
The unguarded comma-stripping before the `T`/`U` positions (negative
indices when `find` returned -1) is kept exactly as in the source. -/
def ports_as_list (port_str : PyStr) : Except PyErr (Option (List Int × List Int)) :=
  if port_str.isEmpty then .ok none
  else if ports_str_check_failed port_str then .ok none
  else
    let ports := pyRemoveChar ' ' port_str
    let b_tcp := pyFindSub ports (pyS "T")
    let b_udp := pyFindSub ports (pyS "U")
    match pyGetItem ports (b_tcp - 1) with
    | .error e => .error e
    | .ok c1 =>
    let ports := if c1 = ',' then pySliceTo ports (b_tcp - 1) ++ pySliceFrom ports b_tcp else ports
    match pyGetItem ports (b_udp - 1) with
    | .error e => .error e
    | .ok c2 =>
    let ports := if c2 = ',' then pySliceTo ports (b_udp - 1) ++ pySliceFrom ports b_udp else ports
    let ports := port_str_arrange ports
    let segs : Except PyErr (PyStr × PyStr) :=
      if b_udp ≠ -1 ∧ b_tcp ≠ -1 then
        match pyIndexSub ports (pyS "T:"), pyIndexSub ports (pyS "U:") with
        | .ok it, .ok iu => .ok (pySliceBetween ports (it + 2) iu, pySliceFrom ports (iu + 2))
        | .error e, _ => .error e
        | _, .error e => .error e
      else if b_tcp = -1 ∧ b_udp ≠ -1 then
        match pyIndexSub ports (pyS "U:") with
        | .ok iu => .ok ([], pySliceFrom ports (iu + 2))
        | .error e => .error e
      else if b_udp = -1 ∧ b_tcp ≠ -1 then
        match pyIndexSub ports (pyS "T:") with
        | .ok it => .ok (pySliceFrom ports (it + 2), [])
        | .error e => .error e
      else .ok (ports, [])
    portsFinal segs

/-- `get_tcp_port_list(port_str)`. -/
def get_tcp_port_list (port_str : PyStr) : Except PyErr (Option (List Int)) :=
  (ports_as_list port_str).map (fun o => o.map Prod.fst)

/-- `get_udp_port_list(port_str)`. -/
def get_udp_port_list (port_str : PyStr) : Except PyErr (Option (List Int)) :=
  (ports_as_list port_str).map (fun o => o.map Prod.snd)

/-- `sorted(set(port_list))`: ascending unique values. -/
def pySortedSet (l : List Int) : List Int := pySortInt l.dedup

/-- Group a list into maximal runs of consecutive integers; this is what
`itertools.groupby(enumerate(port_list), lambda t: t[1] - t[0])` produces
on a sorted list (adjacent elements share a group exactly when the value
minus the enumeration index is unchanged, i.e. when the successor is
one more than its predecessor). -/
def consecGroups : List Int → List (List Int)
  | [] => []
  | [x] => [[x]]
  | x :: y :: rest =>
    match consecGroups (y :: rest) with
    | g :: gs => if y = x + 1 then (x :: g) :: gs else [x] :: g :: gs
    | [] => [[x]]

/-- Render one `groupby` group: a single value, or `start-end`. -/
def groupStr (g : List Int) : PyStr :=
  if g.headD 0 = g.getLastD 0 then pyStrOfInt (g.headD 0)
  else pyStrOfInt (g.headD 0) ++ '-' :: pyStrOfInt (g.getLastD 0)

/-- `port_list_compress(port_list)`. -/
def port_list_compress (port_list : List Int) : PyStr :=
  if port_list.isEmpty then []
  else pyJoinChar ',' ((consecGroups (pySortedSet port_list)).map groupStr)

/-- `ScanStatus` of `ospd/misc.py`. -/
inductive ScanStatus where
  | INIT
  | RUNNING
  | STOPPED
  | FINISHED
  deriving DecidableEq, Repr

/-- One result record as built by `ScanCollection.add_result`. -/
structure ResultEntry where
  rtype : Nat
  name : PyStr
  severity : PyStr
  test_id : PyStr
  value : PyStr
  host : PyStr
  port : PyStr
  qod : PyStr
  deriving DecidableEq, Repr

/-- The `end_time` field holds either a stamped integer time or the
initial string sentinel `"0"`. -/
inductive PyTimeVal where
  | int (i : Int)
  | str (s : PyStr)
  deriving DecidableEq, Repr

/-- A `(target, port_spec, credentials)` triple of the `targets` list. -/
structure TargetTriple where
  target : PyStr
  ports : PyStr
  credentials : List (PyStr × PyStr)
  deriving DecidableEq, Repr

/-- The per-scan record (`scan_info`) kept in `scans_table`. -/
structure ScanInfo where
  results : List ResultEntry
  finished_hosts : List (PyStr × List PyStr)
  progress : Int
  target_progress : List (PyStr × List (PyStr × Int))
  targets : List TargetTriple
  vts : PyStr
  options : List (PyStr × PyStr)
  start_time : Int
  end_time : PyTimeVal
  status : ScanStatus
  scan_id : PyStr
  deriving DecidableEq, Repr

/-- The scans table: a Python dict modelled as an insertion-ordered
association list (keys are unique in any state reachable through the
dict operations below). -/
abbrev ScanTable := List (PyStr × ScanInfo)

/-- Dict lookup (first binding; keys of a Python dict are unique). -/
def pyDictGet {α : Type} (tbl : List (PyStr × α)) (k : PyStr) : Option α :=
  match tbl with
  | [] => none
  | (k2, v) :: rest => if k2 = k then some v else pyDictGet rest k

/-- Dict item assignment: replace the first binding in place, or append. -/
def pyDictSet {α : Type} (tbl : List (PyStr × α)) (k : PyStr) (v : α) : List (PyStr × α) :=
  match tbl with
  | [] => [(k, v)]
  | (k2, v2) :: rest =>
    if k2 = k then (k2, v) :: rest else (k2, v2) :: pyDictSet rest k v

/-- `dict.pop(k)`: remove the first binding (`KeyError` when absent). -/
def pyDictPop {α : Type} (tbl : List (PyStr × α)) (k : PyStr) :
    Except PyErr (List (PyStr × α)) :=
  match tbl with
  | [] => .error .keyError
  | (k2, v2) :: rest =>
    if k2 = k then .ok rest
    else
      match pyDictPop rest k with
      | .error e => .error e
      | .ok rest2 => .ok ((k2, v2) :: rest2)

/-- `dict(pairs)`: insert the pairs left to right (a duplicate key keeps its
first position, the value is overwritten). -/
def pyDictFromPairs {α : Type} (pairs : List (PyStr × α)) : List (PyStr × α) :=
  pairs.foldl (fun acc p => pyDictSet acc p.1 p.2) []

/-- The registry: the lazily created shared-data flag (`data_manager`) and
the scans table. -/
structure Registry where
  data_manager : Bool
  scans_table : ScanTable
  deriving DecidableEq, Repr

/-- `ScanCollection.get_status(scan_id)`: raises `KeyError` on a missing
scan id. -/
def get_status (tbl : ScanTable) (scan_id : PyStr) : Except PyErr ScanStatus :=
  match pyDictGet tbl scan_id with
  | some info => .ok info.status
  | none => .error .keyError

/-- `ScanCollection.id_exists(scan_id)`. -/
def id_exists (tbl : ScanTable) (scan_id : PyStr) : Bool :=
  (pyDictGet tbl scan_id).isSome

/-- `ScanCollection.set_progress(scan_id, progress)` (`now` models
`int(time.time())`). -/
def set_progress (tbl : ScanTable) (scan_id : PyStr) (progress : Int) (now : Int) :
    Except PyErr ScanTable :=
  match pyDictGet tbl scan_id with
  | none => .error .keyError
  | some info =>
    let info := if 0 < progress ∧ progress ≤ 100 then
        { info with progress := progress } else info
    let info := if progress = 100 then
        { info with end_time := .int now } else info
    .ok (pyDictSet tbl scan_id info)

/-- `ScanCollection.delete_scan(scan_id)`: refuse on RUNNING, otherwise pop
the record and tear down the shared table when it was the last one. -/
def delete_scan (reg : Registry) (scan_id : PyStr) : Except PyErr (Bool × Registry) :=
  match get_status reg.scans_table scan_id with
  | .error e => .error e
  | .ok st =>
    if st = ScanStatus.RUNNING then .ok (false, reg)
    else
      match pyDictPop reg.scans_table scan_id with
      | .error e => .error e
      | .ok tbl2 =>
        let dm := if tbl2.length = 0 then false else reg.data_manager
        .ok (true, { data_manager := dm, scans_table := tbl2 })

/-- `ScanCollection.results_iterator(scan_id, pop_res)`: the result list
snapshot, and the table after the optional drain. -/
def results_iterator (tbl : ScanTable) (scan_id : PyStr) (pop_res : Bool) :
    Except PyErr (List ResultEntry × ScanTable) :=
  match pyDictGet tbl scan_id with
  | none => .error .keyError
  | some info =>
    if pop_res then .ok (info.results, pyDictSet tbl scan_id { info with results := [] })
    else .ok (info.results, tbl)

/-- `ScanCollection.remove_single_result(scan_id, result)`: the source
deletes `self.scans_table[scan_id]['results'][result]` where `result` is the
result dict itself, and a list index must be an integer, so this raises
`TypeError` unconditionally. -/
def remove_single_result (tbl : ScanTable) (scan_id : PyStr) (result : ResultEntry) :
    Except PyErr ScanTable :=
  .error .typeError

/-- The removal loop of `get_hosts_unfinished`: `list.remove(host)` for
every finished host (`ValueError` when a host is absent). -/
def pyListRemove (l : List PyStr) (x : PyStr) : Except PyErr (List PyStr) :=
  match l with
  | [] => .error .valueError
  | y :: rest =>
    if y = x then .ok rest
    else
      match pyListRemove rest x with
      | .error e => .error e
      | .ok rest2 => .ok (y :: rest2)

/-- First loop of `get_hosts_unfinished`: expand every `finished_hosts`
key through `target_str_to_list` (`extend(None)` would raise `TypeError`). -/
def unfinishedExpandLoop : List (PyStr × List PyStr) → List PyStr →
    Except PyErr (List PyStr)
  | [], acc => .ok acc
  | (target, _) :: rest, acc =>
    match target_str_to_list target with
    | .error e => .error e
    | .ok none => .error .typeError
    | .ok (some l) => unfinishedExpandLoop rest (acc ++ l)

/-- Second loop of `get_hosts_unfinished`: remove every finished host. -/
def unfinishedRemoveLoop : List (PyStr × List PyStr) → List PyStr →
    Except PyErr (List PyStr)
  | [], acc => .ok acc
  | (_, hosts) :: rest, acc =>
    match hostsRemove hosts acc with
    | .error e => .error e
    | .ok acc2 => unfinishedRemoveLoop rest acc2
where
  hostsRemove : List PyStr → List PyStr → Except PyErr (List PyStr)
  | [], acc => .ok acc
  | h :: hs, acc =>
    match pyListRemove acc h with
    | .error e => .error e
    | .ok acc2 => hostsRemove hs acc2

/-- `ScanCollection.get_hosts_unfinished(scan_id)`. -/
def get_hosts_unfinished (tbl : ScanTable) (scan_id : PyStr) :
    Except PyErr (List PyStr) :=
  match pyDictGet tbl scan_id with
  | none => .error .keyError
  | some info =>
    match unfinishedExpandLoop info.finished_hosts [] with
    | .error e => .error e
    | .ok expanded => unfinishedRemoveLoop info.finished_hosts expanded

/-- The result loop of `del_results_for_stopped_hosts`, iterating over the
snapshot produced by `results_iterator(scan_id, False)`. -/
def delResultsLoop (tbl : ScanTable) (scan_id : PyStr) (unfinished : List PyStr) :
    List ResultEntry → Except PyErr ScanTable
  | [] => .ok tbl
  | r :: rest =>
    if r.host ∈ unfinished then
      match remove_single_result tbl scan_id r with
      | .error e => .error e
      | .ok tbl2 => delResultsLoop tbl2 scan_id unfinished rest
    else delResultsLoop tbl scan_id unfinished rest

/-- `ScanCollection.del_results_for_stopped_hosts(scan_id)`. -/
def del_results_for_stopped_hosts (tbl : ScanTable) (scan_id : PyStr) :
    Except PyErr ScanTable :=
  match get_hosts_unfinished tbl scan_id with
  | .error e => .error e
  | .ok unfinished =>
    match results_iterator tbl scan_id false with
    | .error e => .error e
    | .ok (results, tbl2) => delResultsLoop tbl2 scan_id unfinished results

/-- `ScanCollection.resume_scan(scan_id, options)`. -/
def resume_scan (reg : Registry) (scan_id : PyStr) (options : Option (List (PyStr × PyStr))) :
    Except PyErr (PyStr × Registry) :=
  match pyDictGet reg.scans_table scan_id with
  | none => .error .keyError
  | some info =>
    let tbl := pyDictSet reg.scans_table scan_id { info with status := ScanStatus.INIT }
    let tbl :=
      match options with
      | some o =>
        if o.isEmpty then tbl
        else
          match pyDictGet tbl scan_id with
          | some info2 => pyDictSet tbl scan_id { info2 with options := o }
          | none => tbl
      | none => tbl
    match del_results_for_stopped_hosts tbl scan_id with
    | .error e => .error e
    | .ok tbl2 => .ok (scan_id, { reg with scans_table := tbl2 })

/-- The fresh record built by the non-resume path of `create_scan`. -/
def freshScanInfo (targets : List TargetTriple) (options : Option (List (PyStr × PyStr)))
    (vts : PyStr) (now : Int) (scan_id : PyStr) : ScanInfo :=
  { results := []
    finished_hosts := pyDictFromPairs (targets.map (fun t => (t.target, ([] : List PyStr))))
    progress := 0
    target_progress :=
      pyDictFromPairs (targets.map (fun t => (t.target, ([] : List (PyStr × Int)))))
    targets := targets
    vts := vts
    options := options.getD []
    start_time := now
    end_time := .str (pyS "0")
    status := ScanStatus.INIT
    scan_id := scan_id }

/-- `ScanCollection.create_scan(scan_id, targets, options, vts)`.
`now` models `int(time.time())` and `freshId` the generated
`str(uuid.uuid4())`. -/
def create_scan (reg : Registry) (scan_id : PyStr) (targets : List TargetTriple)
    (options : Option (List (PyStr × PyStr))) (vts : PyStr) (now : Int) (freshId : PyStr) :
    Except PyErr (PyStr × Registry) :=
  let reg : Registry := { reg with data_manager := true }
  if ¬scan_id.isEmpty ∧ id_exists reg.scans_table scan_id ∧
      get_status reg.scans_table scan_id = .ok ScanStatus.STOPPED then
    resume_scan reg scan_id options
  else
    let sid := if scan_id.isEmpty then freshId else scan_id
    let info := freshScanInfo targets options vts now sid
    .ok (sid, { reg with scans_table := pyDictSet reg.scans_table sid info })

/-- Did `end_time` get stamped with an integer time (as opposed to the
initial string sentinel)? -/
def PyTimeVal.isStamped : PyTimeVal → Bool
  | .int _ => true
  | .str _ => false

theorem pyDictGet_set_self {α : Type} (tbl : List (PyStr × α)) (k : PyStr) (v : α) :
    pyDictGet (pyDictSet tbl k v) k = some v := by
  induction tbl with
  | nil => simp [pyDictGet, pyDictSet]
  | cons hd tl ih =>
    obtain ⟨k2, v2⟩ := hd
    by_cases h : k2 = k <;> simp [pyDictGet, pyDictSet, h, ih]

theorem pyDictSet_get_self {α : Type} (tbl : List (PyStr × α)) (k : PyStr) (v : α)
    (h : pyDictGet tbl k = some v) : pyDictSet tbl k v = tbl := by
  induction tbl with
  | nil => simp [pyDictGet] at h
  | cons hd tl ih =>
    obtain ⟨k2, v2⟩ := hd
    by_cases hk : k2 = k
    · simp [pyDictGet, hk] at h
      simp [pyDictSet, hk, h]
    · simp [pyDictGet, hk] at h
      simp [pyDictSet, hk, ih h]

theorem pyDictPop_of_get_some {α : Type} (tbl : List (PyStr × α)) (k : PyStr) (v : α)
    (h : pyDictGet tbl k = some v) : ∃ tbl2, pyDictPop tbl k = .ok tbl2 := by
  induction tbl with
  | nil => simp [pyDictGet] at h
  | cons hd tl ih =>
    obtain ⟨k2, v2⟩ := hd
    by_cases hk : k2 = k
    · exact ⟨tl, by simp [pyDictPop, hk]⟩
    · simp [pyDictGet, hk] at h
      obtain ⟨tbl2, htbl2⟩ := ih h
      exact ⟨(k2, v2) :: tbl2, by simp [pyDictPop, hk, htbl2]⟩

theorem pyDictGet_eq_none_of_not_mem {α : Type} (tbl : List (PyStr × α)) (k : PyStr)
    (h : k ∉ tbl.map Prod.fst) : pyDictGet tbl k = none := by
  induction tbl with
  | nil => simp [pyDictGet]
  | cons hd tl ih =>
    obtain ⟨k2, v2⟩ := hd
    simp only [List.map_cons, List.mem_cons, not_or] at h
    have hne : k2 ≠ k := fun he => h.1 he.symm
    simp [pyDictGet, hne, ih h.2]

theorem pyDictGet_pop_self {α : Type} (tbl tbl2 : List (PyStr × α)) (k : PyStr)
    (hnd : (tbl.map Prod.fst).Nodup) (h : pyDictPop tbl k = .ok tbl2) :
    pyDictGet tbl2 k = none := by
  induction tbl generalizing tbl2 with
  | nil => simp [pyDictPop] at h
  | cons hd tl ih =>
    obtain ⟨k2, v2⟩ := hd
    simp only [List.map_cons, List.nodup_cons] at hnd
    by_cases hk : k2 = k
    · simp only [pyDictPop, if_pos hk] at h
      cases h
      exact pyDictGet_eq_none_of_not_mem tl k (hk ▸ hnd.1)
    · simp only [pyDictPop, if_neg hk] at h
      cases hpop : pyDictPop tl k with
      | error e => rw [hpop] at h; cases h
      | ok tl3 =>
        rw [hpop] at h
        cases h
        simp only [pyDictGet, if_neg hk]
        exact ih _ hnd.2 hpop

theorem pyDictGet_pop_other {α : Type} (tbl tbl2 : List (PyStr × α)) (k k2 : PyStr)
    (hne : k2 ≠ k) (h : pyDictPop tbl k = .ok tbl2) :
    pyDictGet tbl2 k2 = pyDictGet tbl k2 := by
  induction tbl generalizing tbl2 with
  | nil => simp [pyDictPop] at h
  | cons hd tl ih =>
    obtain ⟨k3, v3⟩ := hd
    by_cases hk : k3 = k
    · simp only [pyDictPop, if_pos hk] at h
      cases h
      have : k3 ≠ k2 := fun he => hne (he.symm.trans hk)
      simp [pyDictGet, this]
    · simp only [pyDictPop, if_neg hk] at h
      cases hpop : pyDictPop tl k with
      | error e => rw [hpop] at h; cases h
      | ok tl3 =>
        rw [hpop] at h
        cases h
        by_cases h3 : k3 = k2 <;> simp [pyDictGet, h3, ih _ hpop]

/-- C8: for every scan id present in the registry, `delete_scan` on a
RUNNING scan returns `False` and leaves the registry completely unchanged,
while on an INIT, STOPPED or FINISHED scan it removes the record (leaving
every other record in place) and returns `True`. -/
theorem delete_scan_spec (reg : Registry) (scan_id : PyStr) (info : ScanInfo)
    (hget : pyDictGet reg.scans_table scan_id = some info)
    (hnd : (reg.scans_table.map Prod.fst).Nodup) :
    (info.status = ScanStatus.RUNNING → delete_scan reg scan_id = .ok (false, reg)) ∧
    (info.status ≠ ScanStatus.RUNNING →
      ∃ tbl2, pyDictPop reg.scans_table scan_id = .ok tbl2 ∧
        delete_scan reg scan_id =
          .ok (true, { data_manager := if tbl2.length = 0 then false else reg.data_manager,
                       scans_table := tbl2 }) ∧
        pyDictGet tbl2 scan_id = none ∧
        ∀ k, k ≠ scan_id → pyDictGet tbl2 k = pyDictGet reg.scans_table k) := by
  constructor
  · intro hrun
    simp [delete_scan, get_status, hget, hrun]
  · intro hrun
    obtain ⟨tbl2, hpop⟩ := pyDictPop_of_get_some _ _ _ hget
    refine ⟨tbl2, hpop, ?_, pyDictGet_pop_self _ _ _ hnd hpop,
      fun k hk => pyDictGet_pop_other _ _ _ _ hk hpop⟩
    simp [delete_scan, get_status, hget, hrun, hpop]

/-- Witness for `delete_scan_spec` at a one-record registry holding an INIT
scan (deletion succeeds and empties the table, so the shared manager is
also torn down). -/
theorem delete_scan_spec_witness :
    ((freshScanInfo [] none [] 0 (pyS "a")).status = ScanStatus.RUNNING →
      delete_scan
        { data_manager := true, scans_table := [(pyS "a", freshScanInfo [] none [] 0 (pyS "a"))] }
        (pyS "a") =
        .ok (false, { data_manager := true,
                      scans_table := [(pyS "a", freshScanInfo [] none [] 0 (pyS "a"))] })) ∧
    ((freshScanInfo [] none [] 0 (pyS "a")).status ≠ ScanStatus.RUNNING →
      ∃ tbl2,
        pyDictPop [(pyS "a", freshScanInfo [] none [] 0 (pyS "a"))] (pyS "a") = .ok tbl2 ∧
        delete_scan
          { data_manager := true,
            scans_table := [(pyS "a", freshScanInfo [] none [] 0 (pyS "a"))] }
          (pyS "a") =
          .ok (true, { data_manager := if tbl2.length = 0 then false else true,
                       scans_table := tbl2 }) ∧
        pyDictGet tbl2 (pyS "a") = none ∧
        ∀ k, k ≠ pyS "a" →
          pyDictGet tbl2 k =
            pyDictGet [(pyS "a", freshScanInfo [] none [] 0 (pyS "a"))] k) :=
  delete_scan_spec
    { data_manager := true, scans_table := [(pyS "a", freshScanInfo [] none [] 0 (pyS "a"))] }
    (pyS "a") (freshScanInfo [] none [] 0 (pyS "a")) (by decide) (by decide)

/-- C9: `set_progress` is a silent no-op outside `(0, 100]`, sets the
progress inside the range, additionally stamps `end_time` at 100, and
preserves the invariant that a progress of 100 implies a stamped
`end_time`. -/
theorem set_progress_spec (tbl : ScanTable) (scan_id : PyStr) (info : ScanInfo) (p now : Int)
    (hget : pyDictGet tbl scan_id = some info) :
    (¬(0 < p ∧ p ≤ 100) → set_progress tbl scan_id p now = .ok tbl) ∧
    (0 < p → p ≤ 100 → set_progress tbl scan_id p now =
        .ok (pyDictSet tbl scan_id
          { info with progress := p,
                      end_time := if p = 100 then .int now else info.end_time })) ∧
    (∀ tbl2 info2, (info.progress = 100 → info.end_time.isStamped) →
        set_progress tbl scan_id p now = .ok tbl2 →
        pyDictGet tbl2 scan_id = some info2 →
        info2.progress = 100 → info2.end_time.isStamped) := by
  refine ⟨?_, ?_, ?_⟩
  · intro h
    have h100 : p ≠ 100 := by omega
    simp only [set_progress, hget, if_neg h, if_neg h100]
    rw [pyDictSet_get_self _ _ _ hget]
  · intro h0 h1
    by_cases h100 : p = 100 <;>
      simp [set_progress, hget, h0, h1, h100]
  · intro tbl2 info2 hinv hset hget2 hp100
    by_cases hr : 0 < p ∧ p ≤ 100
    · by_cases h100 : p = 100
      · simp only [set_progress, hget, if_pos hr, if_pos h100] at hset
        cases hset
        rw [pyDictGet_set_self] at hget2
        cases hget2
        rfl
      · simp only [set_progress, hget, if_pos hr, if_neg h100] at hset
        cases hset
        rw [pyDictGet_set_self] at hget2
        cases hget2
        exact absurd hp100 h100
    · have h100 : p ≠ 100 := by omega
      simp only [set_progress, hget, if_neg hr, if_neg h100] at hset
      cases hset
      rw [pyDictSet_get_self _ _ _ hget] at hget2
      rw [hget] at hget2
      cases hget2
      exact hinv hp100

/-- Witness for `set_progress_spec` at a one-record table and `p = 100`. -/
theorem set_progress_spec_witness :
    (¬((0 : Int) < 100 ∧ (100 : Int) ≤ 100) →
      set_progress [(pyS "a", freshScanInfo [] none [] 0 (pyS "a"))] (pyS "a") 100 7 =
        .ok [(pyS "a", freshScanInfo [] none [] 0 (pyS "a"))]) ∧
    ((0 : Int) < 100 → (100 : Int) ≤ 100 →
      set_progress [(pyS "a", freshScanInfo [] none [] 0 (pyS "a"))] (pyS "a") 100 7 =
        .ok (pyDictSet [(pyS "a", freshScanInfo [] none [] 0 (pyS "a"))] (pyS "a")
          { freshScanInfo [] none [] 0 (pyS "a") with
              progress := 100,
              end_time := if (100 : Int) = 100 then .int 7
                else (freshScanInfo [] none [] 0 (pyS "a")).end_time })) ∧
    (∀ tbl2 info2,
        ((freshScanInfo [] none [] 0 (pyS "a")).progress = 100 →
          (freshScanInfo [] none [] 0 (pyS "a")).end_time.isStamped) →
        set_progress [(pyS "a", freshScanInfo [] none [] 0 (pyS "a"))] (pyS "a") 100 7 =
          .ok tbl2 →
        pyDictGet tbl2 (pyS "a") = some info2 →
        info2.progress = 100 → info2.end_time.isStamped) :=
  set_progress_spec [(pyS "a", freshScanInfo [] none [] 0 (pyS "a"))] (pyS "a")
    (freshScanInfo [] none [] 0 (pyS "a")) 100 7 (by decide)

/-- C10: `create_scan` on an id that is present with a status other than
STOPPED takes the fresh path: it replaces the record with a brand new INIT
record built from the new targets, options and vts (no results, progress 0)
and returns the same scan id. -/
theorem create_scan_replaces_non_stopped (reg : Registry) (scan_id : PyStr) (info : ScanInfo)
    (targets : List TargetTriple) (options : Option (List (PyStr × PyStr))) (vts : PyStr)
    (now : Int) (freshId : PyStr)
    (hget : pyDictGet reg.scans_table scan_id = some info)
    (hst : info.status ≠ ScanStatus.STOPPED)
    (hid : ¬scan_id.isEmpty) :
    create_scan reg scan_id targets options vts now freshId =
      .ok (scan_id,
        { data_manager := true,
          scans_table := pyDictSet reg.scans_table scan_id
            (freshScanInfo targets options vts now scan_id) }) ∧
    pyDictGet
        (pyDictSet reg.scans_table scan_id (freshScanInfo targets options vts now scan_id))
        scan_id = some (freshScanInfo targets options vts now scan_id) := by
  refine ⟨?_, pyDictGet_set_self _ _ _⟩
  simp [create_scan, id_exists, get_status, hget, hst, hid]

/-- Witness for `create_scan_replaces_non_stopped`: a registry holding a
FINISHED record under "a" gets a fresh INIT record. -/
theorem create_scan_replaces_non_stopped_witness :
    (create_scan
        { data_manager := true,
          scans_table :=
            [(pyS "a", { freshScanInfo [] none [] 0 (pyS "a") with
                           status := ScanStatus.FINISHED, progress := 70 })] }
        (pyS "a") [] (some [(pyS "k", pyS "v")]) (pyS "w") 9 (pyS "gen") =
      .ok (pyS "a",
        { data_manager := true,
          scans_table :=
            pyDictSet
              [(pyS "a", { freshScanInfo [] none [] 0 (pyS "a") with
                             status := ScanStatus.FINISHED, progress := 70 })]
              (pyS "a") (freshScanInfo [] (some [(pyS "k", pyS "v")]) (pyS "w") 9 (pyS "a")) })) ∧
    pyDictGet
        (pyDictSet
          [(pyS "a", { freshScanInfo [] none [] 0 (pyS "a") with
                         status := ScanStatus.FINISHED, progress := 70 })]
          (pyS "a") (freshScanInfo [] (some [(pyS "k", pyS "v")]) (pyS "w") 9 (pyS "a")))
        (pyS "a") = some (freshScanInfo [] (some [(pyS "k", pyS "v")]) (pyS "w") 9 (pyS "a")) :=
  create_scan_replaces_non_stopped
    { data_manager := true,
      scans_table :=
        [(pyS "a", { freshScanInfo [] none [] 0 (pyS "a") with
                       status := ScanStatus.FINISHED, progress := 70 })] }
    (pyS "a")
    { freshScanInfo [] none [] 0 (pyS "a") with status := ScanStatus.FINISHED, progress := 70 }
    [] (some [(pyS "k", pyS "v")]) (pyS "w") 9 (pyS "gen")
    (by decide) (by decide) (by decide)

/-- A stored result entry for the given host (as appended by
`add_result`). -/
def sampleResult (h : String) : ResultEntry :=
  { rtype := 1, name := pyS "r", severity := [], test_id := [], value := [],
    host := pyS h, port := [], qod := [] }

/-- A STOPPED scan over the target `10.0.0.0/30` whose host `10.0.0.1` is
finished and whose results contain one entry for the finished host
`10.0.0.1` and one stale entry for the interrupted host `10.0.0.2` (the
resume scenario of the specification). -/
def stoppedScanInfo : ScanInfo :=
  { results := [sampleResult "10.0.0.1", sampleResult "10.0.0.2"]
    finished_hosts := [(pyS "10.0.0.0/30", [pyS "10.0.0.1"])]
    progress := 50
    target_progress := []
    targets := [{ target := pyS "10.0.0.0/30", ports := pyS "1-3", credentials := [] }]
    vts := []
    options := [(pyS "old", pyS "1")]
    start_time := 5
    end_time := .str (pyS "0")
    status := ScanStatus.STOPPED
    scan_id := pyS "s1" }

/-- A registry holding exactly the STOPPED scan above under id "s1". -/
def stoppedRegistry : Registry :=
  { data_manager := true, scans_table := [(pyS "s1", stoppedScanInfo)] }

/-- C1: resuming the STOPPED scan of the specification example does not
discard the stale result and return the scan id: it raises `TypeError`,
because `remove_single_result` deletes
`scans_table[scan_id]['results'][result]` with the result dict itself as a
list index.  (`10.0.0.2` is correctly computed as the only unfinished host,
and the crash is reached exactly when a stored result belongs to it.) -/
theorem create_scan_resume_raises_typeError :
    create_scan stoppedRegistry (pyS "s1") [] (some [(pyS "new", pyS "2")]) [] 99 (pyS "u")
      = .error .typeError ∧
    get_hosts_unfinished stoppedRegistry.scans_table (pyS "s1") = .ok [pyS "10.0.0.2"] := by
  decide

/-- C3: the resolver does not implement the fail-closed contract on every
input: the single-token target string "1.2.3.0-5" (an IPv4 short range
starting at a `.0` address) makes `target_str_to_list` raise `ValueError`
instead of returning a host list or `None`, because `target_to_ipv4_short`
evaluates `int(binascii.hexlify(bytes(start_packed[3])), 16)` and
`bytes(0)` is the empty byte string. -/
theorem target_str_to_list_crashes_on_zero_octet_range :
    target_str_to_list (pyS "1.2.3.0-5") = .error .valueError := by
  decide

/-- C4 counterexample: resolving "192.168.1.10-192.168.1.5" (end below
start) is not Invalid (`None`). -/
theorem reversed_long_range_not_invalid :
    target_str_to_list (pyS "192.168.1.10-192.168.1.5") ≠ .ok none := by
  decide

/-- C4 as amended: the reversed long range "192.168.1.10-192.168.1.5" falls
through every numeric matcher and is accepted by the hostname matcher, so
the resolver returns the token itself as a single "hostname"; the ordered
long range "192.168.1.5-192.168.1.10" resolves to the 6 addresses `.5`
through `.10` in ascending order. -/
theorem long_range_resolution :
    target_str_to_list (pyS "192.168.1.10-192.168.1.5") =
      .ok (some [pyS "192.168.1.10-192.168.1.5"]) ∧
    target_str_to_list (pyS "192.168.1.5-192.168.1.10") =
      .ok (some [pyS "192.168.1.5", pyS "192.168.1.6", pyS "192.168.1.7",
                 pyS "192.168.1.8", pyS "192.168.1.9", pyS "192.168.1.10"]) := by
  decide

/-- C5: `target_to_ipv4_short` does not implement the documented
`0 ≤ y ≤ 255 ∧ y ≥ x` acceptance rule under Python 3.  The token
"10.0.0.0-3" (x = 0, y = 3, which the claim accepts as the range
`.0`–`.3`) raises `ValueError`; the token "192.168.1.10-5" (y = 5 < x = 10,
which the claim rejects) is accepted and returns the empty list, because
the computed start octet is always 0 (`bytes(start_packed[3])` is a
zero-filled byte string). -/
theorem target_to_ipv4_short_python3_slip :
    target_to_ipv4_short (pyS "10.0.0.0-3") = .error .valueError ∧
    target_to_ipv4_short (pyS "192.168.1.10-5") = .ok (some []) := by
  decide

/-- C6 counterexample: the accepted port string "1,1-2" parses to a TCP
list with a duplicate entry — `ports_as_list` sorts but never removes
duplicates. -/
theorem ports_as_list_keeps_duplicates :
    ports_as_list (pyS "1,1-2") = .ok (some ([1, 1, 2], [])) ∧
    ¬([1, 1, 2] : List Int).Nodup := by
  decide

/-- C7: the canonical compressed bare-TCP string "1,3" does not round-trip
through parse and compress: the unguarded comma-stripping step reads
`ports[b_tcp - 1]` with `b_tcp = -1` (so `ports[-2]`, the comma), deletes
it, and the parse yields `[13]`, which compresses to "13". -/
theorem ports_roundtrip_fails_on_comma_slip :
    ports_as_list (pyS "1,3") = .ok (some ([13], [])) ∧
    port_list_compress [13] = pyS "13" ∧
    port_list_compress [13] ≠ pyS "1,3" := by
  decide

theorem portSegPorts_sorted (seg : PyStr) (l : List Int)
    (h : portSegPorts seg = .ok l) : l.Sorted (· ≤ ·) := by
  rw [portSegPorts] at h
  split at h
  · cases h
    exact List.sorted_nil
  · split at h
    · cases h
    · cases h
      exact List.sorted_insertionSort _ _

/-- C6 as amended: for every port specification string accepted by the
parser, both returned lists are sorted in ascending order (each nonempty
segment list is sorted in place before being returned); duplicates are not
removed. -/
theorem portsFinal_sorted (segs : Except PyErr (PyStr × PyStr)) (tl ul : List Int)
    (h : portsFinal segs = .ok (some (tl, ul))) :
    tl.Sorted (· ≤ ·) ∧ ul.Sorted (· ≤ ·) := by
  rw [portsFinal.eq_def] at h
  split at h
  · cases h
  · split at h
    · cases h
    · split at h
      · cases h
      · rename_i tp up hseg tcl ht ucl hu
        injection h with h2
        injection h2 with h3
        obtain ⟨h4, h5⟩ := Prod.mk.injEq .. ▸ h3
        subst h4
        subst h5
        exact ⟨portSegPorts_sorted _ _ tcl, portSegPorts_sorted _ _ hu⟩

/-- C6 as amended: for every port specification string accepted by the
parser, both returned lists are sorted in ascending order (each nonempty
segment list is sorted in place before being returned); duplicates are not
removed. -/
theorem ports_as_list_sorted (s : PyStr) (tl ul : List Int)
    (h : ports_as_list s = .ok (some (tl, ul))) :
    tl.Sorted (· ≤ ·) ∧ ul.Sorted (· ≤ ·) := by
  rw [ports_as_list] at h
  split at h
  · cases h
  · split at h
    · cases h
    · dsimp only at h
      split at h
      · cases h
      · split at h
        · cases h
        · exact portsFinal_sorted _ _ _ h

/-- Witness for `ports_as_list_sorted` at the accepted input "1-3". -/
theorem ports_as_list_sorted_witness :
    ([1, 2, 3] : List Int).Sorted (· ≤ ·) ∧ ([] : List Int).Sorted (· ≤ ·) :=
  ports_as_list_sorted (pyS "1-3") [1, 2, 3] [] (by decide)

set_option maxRecDepth 4096 in
theorem parseOctet_toDigits : ∀ x : Nat, x < 256 → parseOctet (pyStrOfNat x) = some x := by
  decide

set_option maxRecDepth 4096 in
theorem toDigits_no_dot : ∀ x : Nat, x < 256 →
    (pyStrOfNat x).all (fun c => c ≠ '.') = true := by
  decide

theorem pySplitChar_append_cons (sep : Char) (a b : PyStr)
    (h : a.all (fun c => c ≠ sep) = true) :
    pySplitChar sep (a ++ sep :: b) = a :: pySplitChar sep b := by
  induction a with
  | nil => simp [pySplitChar]
  | cons c cs ih =>
    simp only [List.all_cons, Bool.and_eq_true, decide_eq_true_eq] at h
    simp [pySplitChar, h.1, ih h.2]

theorem pySplitChar_no_sep (sep : Char) (a : PyStr)
    (h : a.all (fun c => c ≠ sep) = true) :
    pySplitChar sep a = [a] := by
  induction a with
  | nil => simp [pySplitChar]
  | cons c cs ih =>
    simp only [List.all_cons, Bool.and_eq_true, decide_eq_true_eq] at h
    simp [pySplitChar, h.1, ih h.2]

theorem inet_pton4_roundtrip (v : Nat) (hv : v < 4294967296) :
    inet_pton4 (ipv4addrStr v) = some (natToBE4 v) := by
  have h0 : v / 16777216 % 256 < 256 := Nat.mod_lt _ (by norm_num)
  have h1 : v / 65536 % 256 < 256 := Nat.mod_lt _ (by norm_num)
  have h2 : v / 256 % 256 < 256 := Nat.mod_lt _ (by norm_num)
  have h3 : v % 256 < 256 := Nat.mod_lt _ (by norm_num)
  have hjoin : ipv4addrStr v =
      pyStrOfNat (v / 16777216 % 256) ++ '.' ::
        (pyStrOfNat (v / 65536 % 256) ++ '.' ::
          (pyStrOfNat (v / 256 % 256) ++ '.' :: pyStrOfNat (v % 256))) := rfl
  rw [inet_pton4, hjoin,
    pySplitChar_append_cons _ _ _ (toDigits_no_dot _ h0),
    pySplitChar_append_cons _ _ _ (toDigits_no_dot _ h1),
    pySplitChar_append_cons _ _ _ (toDigits_no_dot _ h2),
    pySplitChar_no_sep _ _ (toDigits_no_dot _ h3)]
  simp [parseOctet_toDigits _ h0, parseOctet_toDigits _ h1,
    parseOctet_toDigits _ h2, parseOctet_toDigits _ h3, natToBE4]

theorem ipv4addrStr_inj (v w : Nat) (hv : v < 4294967296) (hw : w < 4294967296)
    (h : ipv4addrStr v = ipv4addrStr w) : v = w := by
  have rv := inet_pton4_roundtrip v hv
  have rw2 := inet_pton4_roundtrip w hw
  rw [h, rw2] at rv
  simp only [natToBE4, Option.some.injEq, List.cons.injEq, and_true] at rv
  omega

theorem parseOctet_lt (p : PyStr) (x : Nat) (h : parseOctet p = some x) : x < 256 := by
  rw [parseOctet] at h
  split at h
  · cases h
  · split at h
    · cases h
    · dsimp only at h
      split at h
      · injection h with h2
        omega
      · cases h

theorem inet_pton4_shape (s : PyStr) (pk : List Nat) (h : inet_pton4 s = some pk) :
    ∃ a0 a1 a2 a3, pk = [a0, a1, a2, a3] ∧
      a0 < 256 ∧ a1 < 256 ∧ a2 < 256 ∧ a3 < 256 := by
  rw [inet_pton4] at h
  split at h
  · rename_i p0 p1 p2 p3
    split at h
    · rename_i a0 a1 a2 a3 h0 h1 h2 h3
      injection h with h4
      exact ⟨a0, a1, a2, a3, h4.symm, parseOctet_lt _ _ h0, parseOctet_lt _ _ h1,
        parseOctet_lt _ _ h2, parseOctet_lt _ _ h3⟩
    · cases h
  · cases h

theorem mask_shiftRight (n : Nat) (h : n ≤ 32) :
    (4294967295 : Nat) >>> n = 2 ^ (32 - n) - 1 := by
  rw [Nat.shiftRight_eq_div_pow]
  have hp : 0 < 2 ^ n := Nat.two_pow_pos n
  have hq : 0 < 2 ^ (32 - n) := Nat.two_pow_pos (32 - n)
  have hadd : n + (32 - n) = 32 := by omega
  have hmul : 2 ^ n * 2 ^ (32 - n) = 4294967296 := by
    rw [← pow_add, hadd]
    norm_num
  have hB : 2 ^ (32 - n) - 1 + 1 = 2 ^ (32 - n) := Nat.succ_pred_eq_of_pos hq
  have hAB : 2 ^ n * 2 ^ (32 - n) = 2 ^ n * (2 ^ (32 - n) - 1) + 2 ^ n := by
    conv_lhs => rw [← hB]
    rw [Nat.mul_add, Nat.mul_one]
  have hsplit : (4294967295 : Nat) = 2 ^ n * (2 ^ (32 - n) - 1) + (2 ^ n - 1) := by omega
  rw [hsplit, Nat.mul_add_div hp, Nat.div_eq_of_lt (by omega), Nat.add_zero]

theorem mul_pow_add_one_lor (q m : Nat) (hm : 1 ≤ m) :
    ((2 ^ m * q + 1) ||| (2 ^ m - 1)) = 2 ^ m * q + (2 ^ m - 1) := by
  have hp : 0 < 2 ^ m := Nat.two_pow_pos m
  have h1 : (1 : Nat) < 2 ^ m := by
    have : 2 ^ 1 ≤ 2 ^ m := Nat.pow_le_pow_right (by norm_num) hm
    omega
  have h2 : 2 ^ m - 1 < 2 ^ m := by omega
  apply Nat.eq_of_testBit_eq
  intro j
  rw [Nat.testBit_or, Nat.testBit_mul_pow_two_add q h1 j,
    Nat.testBit_mul_pow_two_add q h2 j]
  by_cases hj : j < m
  · simp [hj, Nat.testBit_two_pow_sub_one]
  · simp [hj, Nat.testBit_two_pow_sub_one]

theorem bytesBEtoNat_four (a0 a1 a2 a3 : Nat) :
    bytesBEtoNat [a0, a1, a2, a3] = ((a0 * 256 + a1) * 256 + a2) * 256 + a3 := by
  simp [bytesBEtoNat, List.foldl]

theorem structUnpackBE4_natToBE4 (v : Nat) (hv : v < 4294967296) :
    structUnpackBE4 (natToBE4 v) = .ok v := by
  have hlen : (natToBE4 v).length = 4 := by simp [natToBE4]
  rw [structUnpackBE4, if_pos hlen, natToBE4, bytesBEtoNat_four]
  congr 1
  omega

theorem ipv4_range_loop_ok (l : List Nat) (h : ∀ v ∈ l, v < 4294967296) :
    ipv4_range_loop l = .ok (l.map ipv4addrStr) := by
  induction l with
  | nil => simp [ipv4_range_loop]
  | cons v rest ih =>
    have hv : v < 4294967296 := h v (List.mem_cons_self ..)
    rw [ipv4_range_loop, structPackBE4, if_pos hv,
      ih (fun w hw => h w (List.mem_cons_of_mem _ hw))]
    rfl

/-- C2: for every syntactically valid IPv4 CIDR token (a dotted-quad
address accepted by `inet_pton`, a `/`, and a decimal block `n` with
`0 < n ≤ 30`), `target_to_ipv4_cidr` returns exactly the `2^(32-n) - 2`
usable addresses `[network+1, broadcast-1]` in ascending order, and neither
the network address nor the broadcast address is in the returned list. -/
theorem target_to_ipv4_cidr_usable_range (t p1 p2 : PyStr) (pk : List Nat) (b : Int)
    (n m net : Nat)
    (hsplit : pySplitChar '/' t = [p1, p2])
    (hp : inet_pton4 p1 = some pk)
    (hb : pyIntParse p2 = some b)
    (hbn : b = (n : Int)) (h1 : 1 ≤ n) (h30 : n ≤ 30)
    (hm : m = 32 - n)
    (hnet : net = 2 ^ m * (bytesBEtoNat pk / 2 ^ m)) :
    target_to_ipv4_cidr t =
      .ok (some ((List.range' (net + 1) (2 ^ m - 2)).map ipv4addrStr)) ∧
    ((List.range' (net + 1) (2 ^ m - 2)).map ipv4addrStr).length = 2 ^ m - 2 ∧
    (List.range' (net + 1) (2 ^ m - 2)).Pairwise (· < ·) ∧
    (∀ a : Nat, a ∈ List.range' (net + 1) (2 ^ m - 2) ↔
      net + 1 ≤ a ∧ a ≤ net + 2 ^ m - 2) ∧
    ipv4addrStr net ∉ (List.range' (net + 1) (2 ^ m - 2)).map ipv4addrStr ∧
    ipv4addrStr (net + 2 ^ m - 1) ∉ (List.range' (net + 1) (2 ^ m - 2)).map ipv4addrStr := by
  obtain ⟨a0, a1, a2, a3, hpk, hb0, hb1, hb2, hb3⟩ := inet_pton4_shape _ _ hp
  have haddrlt : bytesBEtoNat pk < 4294967296 := by
    rw [hpk, bytesBEtoNat_four]
    omega
  have hm2 : 2 ≤ m := by omega
  have hpow4 : 4 ≤ 2 ^ m := by
    have : 2 ^ 2 ≤ 2 ^ m := Nat.pow_le_pow_right (by norm_num) hm2
    omega
  have hmulpow : 2 ^ m * 2 ^ (32 - m) = 4294967296 := by
    rw [← pow_add]
    have : m + (32 - m) = 32 := by omega
    rw [this]
    norm_num
  have hetop : net + 2 ^ m ≤ 4294967296 := by
    have hqlt : bytesBEtoNat pk / 2 ^ m < 2 ^ (32 - m) :=
      Nat.div_lt_of_lt_mul (by omega)
    have hmul : 2 ^ m * (bytesBEtoNat pk / 2 ^ m + 1) ≤ 2 ^ m * 2 ^ (32 - m) :=
      Nat.mul_le_mul_left _ (Nat.succ_le_of_lt hqlt)
    have heq : net + 2 ^ m = 2 ^ m * (bytesBEtoNat pk / 2 ^ m + 1) := by
      rw [hnet]
      ring
    omega
  have hng : ¬(b ≤ 0 ∨ 30 < b) := by
    rw [hbn]
    omega
  have hsv : bytesBEtoNat pk >>> (32 - n) <<< (32 - n) + 1 = net + 1 := by
    rw [Nat.shiftRight_eq_div_pow, Nat.shiftLeft_eq, hnet, hm]
    ring_nf
  have hmask : (4294967295 : Nat) >>> n = 2 ^ m - 1 := by
    rw [mask_shiftRight n (by omega), hm]
  have hlor : ((net + 1) ||| (2 ^ m - 1)) - 1 = net + 2 ^ m - 2 := by
    rw [hnet, mul_pow_add_one_lor _ _ (by omega)]
    omega
  have hsvlt : net + 1 < 4294967296 := by omega
  have hevlt : net + 2 ^ m - 2 < 4294967296 := by omega
  have hrange : ipv4_range_to_list (natToBE4 (net + 1)) (natToBE4 (net + 2 ^ m - 2)) =
      .ok ((List.range' (net + 1) (2 ^ m - 2)).map ipv4addrStr) := by
    rw [ipv4_range_to_list.eq_def, structUnpackBE4_natToBE4 _ hsvlt,
      structUnpackBE4_natToBE4 _ hevlt]
    dsimp only
    have hcount : net + 2 ^ m - 2 + 1 - (net + 1) = 2 ^ m - 2 := by omega
    unfold pyRangeIncl
    rw [hcount]
    exact ipv4_range_loop_ok _ (by
      intro v hv
      rw [List.mem_range'_1] at hv
      omega)
  have key : target_to_ipv4_cidr t =
      .ok (some ((List.range' (net + 1) (2 ^ m - 2)).map ipv4addrStr)) := by
    rw [target_to_ipv4_cidr.eq_def, hsplit]
    simp only [hp, hb]
    rw [if_neg hng]
    have hne : pk.isEmpty = false := by
      rw [hpk]
      rfl
    rw [bytesHexInt, if_neg (by simp [hne])]
    dsimp only
    simp only [hbn, Int.toNat_natCast]
    rw [hsv, hmask, hlor]
    have hpack1 : structPackBE4 (net + 1) = .ok (natToBE4 (net + 1)) := by
      rw [structPackBE4, if_pos hsvlt]
    have hpack2 : structPackBE4 (net + 2 ^ m - 2) = .ok (natToBE4 (net + 2 ^ m - 2)) := by
      rw [structPackBE4, if_pos hevlt]
    rw [hpack1]
    dsimp only
    rw [hpack2]
    dsimp only
    rw [hrange]
  refine ⟨key, by simp, List.pairwise_lt_range' _ _, ?_, ?_, ?_⟩
  · intro a
    rw [List.mem_range'_1]
    omega
  · intro hmem
    obtain ⟨x, hx, hxe⟩ := List.mem_map.mp hmem
    rw [List.mem_range'_1] at hx
    have := ipv4addrStr_inj x net (by omega) (by omega) hxe
    omega
  · intro hmem
    obtain ⟨x, hx, hxe⟩ := List.mem_map.mp hmem
    rw [List.mem_range'_1] at hx
    have := ipv4addrStr_inj x (net + 2 ^ m - 1) (by omega) (by omega) hxe
    omega

/-- Witness for `target_to_ipv4_cidr_usable_range` at the token
"10.0.0.0/30" (network 10.0.0.0, usable hosts 10.0.0.1 and 10.0.0.2). -/
theorem target_to_ipv4_cidr_usable_range_witness :
    target_to_ipv4_cidr (pyS "10.0.0.0/30") =
      .ok (some ((List.range' (167772160 + 1) (2 ^ 2 - 2)).map ipv4addrStr)) ∧
    ((List.range' (167772160 + 1) (2 ^ 2 - 2)).map ipv4addrStr).length = 2 ^ 2 - 2 ∧
    (List.range' (167772160 + 1) (2 ^ 2 - 2)).Pairwise (· < ·) ∧
    (∀ a : Nat, a ∈ List.range' (167772160 + 1) (2 ^ 2 - 2) ↔
      167772160 + 1 ≤ a ∧ a ≤ 167772160 + 2 ^ 2 - 2) ∧
    ipv4addrStr 167772160 ∉ (List.range' (167772160 + 1) (2 ^ 2 - 2)).map ipv4addrStr ∧
    ipv4addrStr (167772160 + 2 ^ 2 - 1) ∉
      (List.range' (167772160 + 1) (2 ^ 2 - 2)).map ipv4addrStr :=
  target_to_ipv4_cidr_usable_range (pyS "10.0.0.0/30") (pyS "10.0.0.0") (pyS "30")
    [10, 0, 0, 0] 30 30 2 167772160
    (by decide) (by decide) (by decide) (by decide) (by decide) (by decide)
    (by decide) (by decide)
